import Mathlib

/-!
Verification development for the in-browser audio mastering chain
(`src/services/AnalysisService.ts`, `src/App.tsx`, `src/constants.ts`,
`src/types` in `src/unnamed/part_000`).

Modelling conventions (shallow embedding):
* JS `number` arithmetic is embedded into an arbitrary `LinearOrderedField`
  with a `FloorRing` structure (instantiated at `ℚ` for executable
  witnesses and at `ℝ` where the spec's transcendental arithmetic is
  needed).  Transcendental host functions (`Math.pow`, `Math.log10`,
  `Math.tanh`, `Math.PI`) are passed explicitly as a `MathFns` record;
  at `ℝ` they are instantiated with `Real.rpow`, `Real.logb 10`,
  `Real.tanh`, `Real.pi`.
* `Math.random()` is modelled as an explicit stream `noise : ℕ → α`;
  the k-th call of a run reads `noise k`.
* JS object identity (`===` on `AudioContext` / `AudioBuffer` objects)
  is modelled by numeric ids drawn from an allocation counter carried in
  the engine state.
* The decision-log strings produced by `generateAiSettings` are elided:
  no claim under verification mentions them.
-/

namespace Mp3ToWav

/-- Host math functions used by the source (`Math.pow`, `Math.log10`,
`Math.tanh`, `Math.PI`), passed explicitly so that the embedding stays
computable and can be instantiated at `ℚ` or `ℝ`. -/
structure MathFns (α : Type) where
  pi : α
  tanh : α → α
  pow : α → α → α
  log10 : α → α

/-- `EQBand` from `src/unnamed/part_000` (types module). -/
structure EQBand (α : Type) where
  frequency : α
  gain : α
deriving DecidableEq

/-- `CompressorSettings` from the types module. -/
structure CompressorSettings (α : Type) where
  threshold : α
  ratio : α
  attack : α
  release : α
deriving DecidableEq

/-- `ReverbSettings` from the types module. -/
structure ReverbSettings (α : Type) where
  mix : α
  decay : α
deriving DecidableEq

/-- `MasteringSettings` from the types module (the spec's ParameterSet). -/
structure MasteringSettings (α : Type) where
  masterGain : α
  eq : List (EQBand α)
  compressor : CompressorSettings α
  reverb : ReverbSettings α
  saturation : α
  air : α
  body : α
  stereoWidth : α
  ceiling : α
  stereoBass : α
  dynamicBass : α
  softClip : α
deriving DecidableEq

/-- `AnalysisResult` from the types module. -/
structure AnalysisResult (α : Type) where
  rms : α
  crestFactor : α
  spectralFlux : α
  musicalKey : String
  musicalScale : String
  bpm : α
  spectralBalance : List α
  lowEnergy : α
  midEnergy : α

variable {α : Type} [LinearOrderedField α] [FloorRing α]

/-- `DEFAULT_EQ_FREQUENCIES` from `src/constants.ts`. -/
def DEFAULT_EQ_FREQUENCIES : List α :=
  [30, 60, 120, 240, 500, 1000, 2000, 4000, 8000, 12000, 16000, 20000, 26000, 32000]

/-- `DEFAULT_SETTINGS` from `src/constants.ts`. -/
def DEFAULT_SETTINGS : MasteringSettings α where
  masterGain := 0
  eq := (DEFAULT_EQ_FREQUENCIES (α := α)).map fun f => ⟨f, 0⟩
  compressor := ⟨0, 0, 0, 0⟩
  reverb := ⟨0, 2⟩
  saturation := 0
  air := 0
  body := 0
  stereoWidth := 0
  ceiling := 0
  stereoBass := 0
  dynamicBass := 0
  softClip := 0

/-- The local helper `clamp` in `generateAiSettings`
(`Math.min(max, Math.max(min, val))`). -/
def clamp (val lo hi : α) : α := min hi (max lo val)

/-- JS `parseFloat(x.toFixed(d))`: `toFixed` takes the sign out first and
rounds the magnitude to `d` decimal digits with ties toward the larger
value (Mathlib's `round` is `⌊x + 1/2⌋`, which matches that rule on the
non-negative magnitude). -/
def roundTo (d : ℕ) (x : α) : α :=
  if x < 0 then -((round (-x * (10 : α) ^ d) : ℤ) / (10 : α) ^ d)
  else (round (x * (10 : α) ^ d) : ℤ) / (10 : α) ^ d

/-- The fixed `targetCurve` of `generateAiSettings`
(`src/services/AnalysisService.ts` lines 23-28). -/
def targetCurve : List α :=
  [95/100, 90/100, 85/100, 80/100, 75/100, 70/100, 65/100, 60/100,
   55/100, 50/100, 45/100, 40/100, 35/100, 30/100]

/-- The `settings.eq.forEach((band, i) => ...)` loop of
`generateAiSettings` (lines 31-48): per band, if `spectralBalance[i]` is
present, set the gain to the clamped, 0.1-dB-rounded deviation from the
target curve; otherwise leave the band untouched.  The JS
`targetCurve[i] || 0.5` fallback (out of range, or a falsy 0 entry) is
modelled explicitly. -/
def applySpectralEq (sb : List α) : List (EQBand α) → ℕ → List (EQBand α)
  | [], _ => []
  | band :: rest, i =>
      (match sb.get? i with
       | none => band
       | some actual =>
          let target : α :=
            match (targetCurve (α := α)).get? i with
            | some t => if t = 0 then 1/2 else t
            | none => 1/2
          let delta := actual - target
          let gain0 := delta * -12
          let gain :=
            if band.frequency < 100 then clamp gain0 (-3) 3
            else if band.frequency > 8000 then clamp gain0 (-4) 4
            else clamp gain0 (-3) 3
          { band with gain := roundTo 1 gain }) :: applySpectralEq sb rest (i + 1)

/-- `estimatedLUFS = (20 * Math.log10(analysis.rms)) - 0.6` (line 13). -/
def estimatedLUFS (ml : MathFns α) (a : AnalysisResult α) : α :=
  20 * ml.log10 a.rms - 6/10

/-- The loudness target of `generateAiSettings` (lines 84-86):
`-10`, overridden to `estimatedLUFS` when `estimatedLUFS > -12`,
overridden to `-13` when `estimatedLUFS < -24`. -/
def targetLUFS (ml : MathFns α) (a : AnalysisResult α) : α :=
  let e := estimatedLUFS ml a
  if e > -12 then e else if e < -24 then -13 else -10

/-- `gainNeeded = targetLUFS - estimatedLUFS` (line 88). -/
def gainNeeded (ml : MathFns α) (a : AnalysisResult α) : α :=
  targetLUFS ml a - estimatedLUFS ml a

/-- `generateAiSettings` from `src/services/AnalysisService.ts`
(lines 5-123).  Starts from a deep copy of `DEFAULT_SETTINGS` and applies
the spectral-EQ loop, the imaging/bass rules, the saturation rule and the
loudness-targeting section, in the source's order.  The returned decision
log is elided (no claim mentions it). -/
def generateAiSettings (ml : MathFns α) (a : AnalysisResult α) : MasteringSettings α :=
  let s0 : MasteringSettings α := DEFAULT_SETTINGS
  let s1 := { s0 with eq := applySpectralEq a.spectralBalance s0.eq 0 }
  let s2 := { s1 with
    stereoWidth := if a.midEnergy > a.lowEnergy * (3/2) then 1/20 else 15/100
    stereoBass := if a.lowEnergy > 6/10 then 2 else s1.stereoBass
    dynamicBass := if a.lowEnergy < 4/10 then 3 else s1.dynamicBass }
  let s3 :=
    if a.spectralFlux < 12 then { s2 with saturation := 4/100, body := 3/2 }
    else { s2 with saturation := 1/100, body := 0 }
  let g := gainNeeded ml a
  if g > 1/2 then
    let linearGainDb := min g 4
    let saturatorGainDb := max 0 (g - linearGainDb)
    let linearRatio := ml.pow 10 (linearGainDb / 20)
    let softClipAmount := clamp (saturatorGainDb * (8/100)) 0 (4/10)
    let softClipAmount :=
      if a.crestFactor > 4 then softClipAmount + 1/10 else softClipAmount
    let s4 := { s3 with
      masterGain := clamp (linearRatio - 1) 0 (8/10)
      ceiling := -(3/10)
      softClip := roundTo 2 softClipAmount }
    if g > 3 then { s4 with compressor := ⟨-16, 2, 1/100, 15/100⟩ } else s4
  else { s3 with masterGain := 0, softClip := 1/20 }

/-! ### The audio engine (`AudioEngine` class, second document of
`src/services/AnalysisService.ts`) -/

/-- An audio context (`AudioContext` / `OfflineAudioContext`).  JS object
identity (`===`) is modelled by the numeric `id`; ids are drawn from the
engine's allocation counter so distinct allocations are distinct. -/
structure Ctx where
  id : ℕ
  sampleRate : ℕ
deriving DecidableEq

/-- A stereo `AudioBuffer`.  `id` models JS object identity. -/
structure AudioBuffer (α : Type) where
  id : ℕ
  sampleRate : ℕ
  left : List α
  right : List α
deriving DecidableEq

/-- `buffer.length` (frame count). -/
def AudioBuffer.frames (b : AudioBuffer α) : ℕ := b.left.length

/-- The mutable fields of the `AudioEngine` singleton that the verified
claims depend on.  `allocCounter` is the id source modelling JS object
allocation. -/
structure EngineState (α : Type) where
  audioContext : Option Ctx
  audioBuffer : Option (AudioBuffer α)
  impulseResponseCache : Option (AudioBuffer α)
  lastDecayValue : α
  startTime : α
  pausedAt : α
  isPlaying : Bool
  allocCounter : ℕ
deriving DecidableEq

/-- `makeDistortionCurve` (lines 176-187): 4096-point saturation transfer
table, `x = 2 i / 4096 - 1`, `drive = amount * 10`,
`(π + drive) x / (π + drive |x|)`, identity when `drive = 0`. -/
def makeDistortionCurve (ml : MathFns α) (amount : α) : List α :=
  (List.range 4096).map fun i =>
    let x : α := (i : α) * 2 / 4096 - 1
    let drive := amount * 10
    if drive = 0 then x else (ml.pi + drive) * x / (ml.pi + drive * |x|)

/-- `makeSoftClipCurve` (lines 189-203): 4096-point soft-clip transfer
table, `tanh(k x) / tanh k` with `k = 1 + amount * 2`, identity when
`amount = 0`. -/
def makeSoftClipCurve (ml : MathFns α) (amount : α) : List α :=
  (List.range 4096).map fun i =>
    let x : α := (i : α) * 2 / 4096 - 1
    if amount = 0 then x else
      let k := 1 + amount * 2
      ml.tanh (k * x) / ml.tanh k

/-- The impulse length `sampleRate * duration` (truncated to an integer by
`ctx.createBuffer`). -/
def impulseLength (sampleRate : ℕ) (duration : α) : ℕ :=
  (⌊(sampleRate : α) * duration⌋).toNat

/-- The impulse synthesis loop of `createImpulseResponse` (lines 209-222):
per sample `n` (optionally reversed), envelope `(1 - n/length)^decay`,
each channel an independent draw `Math.random() * 2 - 1` times the
envelope.  The raw `Math.random` stream is consumed in source order:
iteration `i` draws `noise (2*i)` for the left channel and
`noise (2*i+1)` for the right channel. -/
def synthImpulse (st : EngineState α) (ctx : Ctx) (duration decay : α)
    (reverse : Bool) (ml : MathFns α) (noise : ℕ → α) :
    AudioBuffer α × EngineState α :=
  let length := impulseLength ctx.sampleRate duration
  let env : ℕ → α := fun i =>
    let n : α := if reverse then (length : α) - (i : α) else (i : α)
    ml.pow (1 - n / (length : α)) decay
  let impulse : AudioBuffer α :=
    { id := st.allocCounter
      sampleRate := ctx.sampleRate
      left := (List.range length).map fun i => (noise (2 * i) * 2 - 1) * env i
      right := (List.range length).map fun i => (noise (2 * i + 1) * 2 - 1) * env i }
  let st1 := { st with allocCounter := st.allocCounter + 1 }
  let st2 :=
    if some ctx = st.audioContext then
      { st1 with impulseResponseCache := some impulse, lastDecayValue := decay }
    else st1
  (impulse, st2)

/-- `createImpulseResponse` (lines 205-229): return the cached buffer when
the request is on the live context, a cache entry exists and the decay is
within `0.01` of the stored decay; otherwise synthesize a fresh buffer,
storing it in the cache only when the request is on the live context. -/
def createImpulseResponse (st : EngineState α) (ctx : Ctx) (duration decay : α)
    (reverse : Bool) (ml : MathFns α) (noise : ℕ → α) :
    AudioBuffer α × EngineState α :=
  match st.impulseResponseCache with
  | some cached =>
      if some ctx = st.audioContext ∧ |st.lastDecayValue - decay| < 1/100 then
        (cached, st)
      else synthImpulse st ctx duration decay reverse ml noise
  | none => synthImpulse st ctx duration decay reverse ml noise

/-- The kind of a constructed filter stage. -/
inductive FilterKind
  | lowshelf
  | highshelf
  | peaking
  | lowpass
deriving DecidableEq

/-- Parameters of one constructed `BiquadFilterNode`. -/
structure FilterParams (α : Type) where
  kind : FilterKind
  frequency : α
  gain : α
  q : α
deriving DecidableEq

/-- Parameters of one constructed `DynamicsCompressorNode` (Web Audio
default knee is 30 when the source leaves it unset). -/
structure DynParams (α : Type) where
  threshold : α
  ratio : α
  attack : α
  release : α
  knee : α
deriving DecidableEq

/-- The bands sorted ascending by frequency:
`[...settings.eq].sort((a, b) => a.frequency - b.frequency)`
(lines 319 and 528; JS sort with this comparator is a stable ascending
sort, modelled by stable `mergeSort`). -/
def sortedEqBands (eq : List (EQBand α)) : List (EQBand α) :=
  eq.mergeSort fun a b => decide (a.frequency ≤ b.frequency)

/-- Type of the filter at `index` among `n` sorted bands:
`index === 0 ? lowshelf : index === n - 1 ? highshelf : peaking`. -/
def kindFor (i n : ℕ) : FilterKind :=
  if i = 0 then .lowshelf else if i = n - 1 then .highshelf else .peaking

/-- Indexed construction of the EQ filter stages from the sorted band
list (the `sortedEq.map((band, index) => ...)` body, lines 320-327 and
529-536): kind from the index, frequency and gain from the band, Q fixed
at 1. -/
def stagesFrom (n : ℕ) : List (EQBand α) → ℕ → List (FilterParams α)
  | [], _ => []
  | band :: rest, i =>
      ⟨kindFor i n, band.frequency, band.gain, 1⟩ :: stagesFrom n rest (i + 1)

/-- The EQ filter stage list built identically by `setupGraph`
(lines 319-327) and `renderOffline` (lines 528-536). -/
def eqStages (eq : List (EQBand α)) : List (FilterParams α) :=
  let sorted := sortedEqBands eq
  stagesFrom sorted.length sorted 0

/-- The parameters of the fixed-topology processing chain built by
`setupGraph`/`play` and mirrored by `renderOffline`.  The wiring is the
same fixed stage order on every build (source → EQ → dynamic bass → body
→ saturation → compressor → reverb send → air → M/S → master gain → soft
clip → limiter → out), so only the node parameter values are recorded.
The convolver's impulse buffer is recorded by content (`reverbLeft`,
`reverbRight`), which is what the rendering reads.  The waveshaper
oversample mode (`'4x'` live, `'none'` offline) is not recorded; no
claim under verification depends on it. -/
structure ChainGraph (α : Type) where
  eqStages : List (FilterParams α)
  dynamicBass : FilterParams α
  body : FilterParams α
  air : FilterParams α
  stereoBass : FilterParams α
  reverbTone : FilterParams α
  compressor : DynParams α
  limiter : DynParams α
  saturationCurve : List α
  softClipCurve : List α
  masterGain : α
  wetGain : α
  dryGain : α
  sumL : α
  sumR : α
  diffL : α
  diffR : α
  msSideGain : α
  outLMid : α
  outLSide : α
  outRMid : α
  outRSide : α
  reverbLeft : List α
  reverbRight : List α
deriving DecidableEq

/-- `setupGraph` (lines 238-330) combined with the parameter targets of
`updateSettings` (lines 332-398): build the full node graph bound to the
live context, synthesizing (or reusing) the convolution impulse via
`createImpulseResponse` on the live context.  Returns `none` and leaves
the state untouched when no context or no buffer is loaded (the source's
silent early return). -/
def setupGraph (st : EngineState α) (s : MasteringSettings α)
    (ml : MathFns α) (noise : ℕ → α) :
    Option (ChainGraph α) × EngineState α :=
  match st.audioContext, st.audioBuffer with
  | some ctx, some _ =>
      let (impulse, st1) := createImpulseResponse st ctx 3 s.reverb.decay false ml noise
      (some
        { eqStages := eqStages s.eq
          dynamicBass := ⟨.peaking, 65, s.dynamicBass, 12/10⟩
          body := ⟨.peaking, 300, s.body, 7/10⟩
          air := ⟨.highshelf, 12000, s.air, 1⟩
          stereoBass := ⟨.lowshelf, 120, s.stereoBass, 1⟩
          reverbTone := ⟨.lowpass, 5000, 0, 1⟩
          compressor := ⟨s.compressor.threshold, max 1 s.compressor.ratio,
                         s.compressor.attack, s.compressor.release, 30⟩
          limiter := ⟨s.ceiling, 20, 1/1000, 1/10, 0⟩
          saturationCurve := makeDistortionCurve ml s.saturation
          softClipCurve := makeSoftClipCurve ml s.softClip
          masterGain := 1 + s.masterGain
          wetGain := s.reverb.mix
          dryGain := 1 - s.reverb.mix
          sumL := 1/2
          sumR := 1/2
          diffL := 1/2
          diffR := -(1/2)
          msSideGain := 1 + s.stereoWidth
          outLMid := 1
          outLSide := 1
          outRMid := 1
          outRSide := -1
          reverbLeft := impulse.left
          reverbRight := impulse.right }, st1)
  | _, _ => (none, st)

/-- `play(offset, settings)` (lines 400-487): silent early return when no
context or no buffer is loaded; otherwise rebuild the graph via
`setupGraph`, start the source at `offset`, record the logical start
reference (`now - offset`), set `pausedAt` and mark playing.  `now` is
the external `audioContext.currentTime`. -/
def play (st : EngineState α) (offset : α) (s : MasteringSettings α)
    (ml : MathFns α) (noise : ℕ → α) (now : α) :
    EngineState α × Option (ChainGraph α) :=
  match st.audioContext, st.audioBuffer with
  | some _, some _ =>
      let (g, st1) := setupGraph st s ml noise
      ({ st1 with startTime := now - offset, pausedAt := offset, isPlaying := true }, g)
  | _, _ => (st, none)

/-- `renderOffline(settings)` (lines 519-647): throws `"No Audio"` when
no buffer is loaded; otherwise builds a fresh `OfflineAudioContext`
(a new object, never identical to the live context) sized to the loaded
buffer, mirrors the play graph against it with static parameter values,
and renders.  The constructed graph (including the freshly synthesized
convolver impulse content) together with the post-call engine state is
returned; the sample-accurate rendering itself is the host's
deterministic function of that graph and the input buffer. -/
def renderOffline (st : EngineState α) (s : MasteringSettings α)
    (ml : MathFns α) (noise : ℕ → α) :
    Except String (ChainGraph α × EngineState α) :=
  match st.audioBuffer with
  | none => .error "No Audio"
  | some buf =>
      let offlineCtx : Ctx := ⟨st.allocCounter, buf.sampleRate⟩
      let st1 := { st with allocCounter := st.allocCounter + 1 }
      let (impulse, st2) := createImpulseResponse st1 offlineCtx 3 s.reverb.decay false ml noise
      .ok
        ({ eqStages := eqStages s.eq
           dynamicBass := ⟨.peaking, 65, s.dynamicBass, 12/10⟩
           body := ⟨.peaking, 300, s.body, 7/10⟩
           air := ⟨.highshelf, 12000, s.air, 1⟩
           stereoBass := ⟨.lowshelf, 120, s.stereoBass, 1⟩
           reverbTone := ⟨.lowpass, 5000, 0, 1⟩
           compressor := ⟨s.compressor.threshold, max 1 s.compressor.ratio,
                          s.compressor.attack, s.compressor.release, 30⟩
           limiter := ⟨s.ceiling, 20, 1/1000, 1/10, 30⟩
           saturationCurve := makeDistortionCurve ml s.saturation
           softClipCurve := makeSoftClipCurve ml s.softClip
           masterGain := 1 + s.masterGain
           wetGain := s.reverb.mix
           dryGain := 1 - s.reverb.mix
           sumL := 1/2
           sumR := 1/2
           diffL := 1/2
           diffR := -(1/2)
           msSideGain := 1 + s.stereoWidth
           outLMid := 1
           outLSide := 1
           outRMid := 1
           outRSide := -1
           reverbLeft := impulse.left
           reverbRight := impulse.right }, st2)

/-- The sample semantics of the M/S subgraph (lines 441-474 live,
578-638 offline): mid and side are formed with gains `0.5 / ±0.5`, the
side channel passes the stereo-bass filter (`sideFx`) and the side gain
`1 + stereoWidth`, and the outputs recombine with gains `1 / ±1`. -/
def msStage (stereoWidth : α) (sideFx : α → α) (l r : α) : α × α :=
  let mid := 1/2 * l + 1/2 * r
  let side := 1/2 * l + -(1/2) * r
  let side2 := (1 + stereoWidth) * sideFx side
  (1 * mid + 1 * side2, 1 * mid + -1 * side2)

/-! ### WAV encoding (`encodeWAV` in `src/App.tsx`, lines 149-223) -/

/-- Export formats (`ExportFormat` in the types module). -/
inductive ExportFormat
  | wav16
  | wav24
  | wav32
deriving DecidableEq

/-- Bit depth per format (lines 154-157). -/
def ExportFormat.bitDepth : ExportFormat → ℕ
  | .wav16 => 16
  | .wav24 => 24
  | .wav32 => 32

/-- WAV format tag (1 = integer PCM, 3 = IEEE float; lines 155-157). -/
def ExportFormat.formatTag : ExportFormat → ℕ
  | .wav32 => 3
  | _ => 1

/-- `dataSize = length * blockAlign` with
`blockAlign = numChannels * bitDepth / 8` (lines 159-162). -/
def wavDataSize (numChannels frames : ℕ) (fmt : ExportFormat) : ℕ :=
  frames * (numChannels * (fmt.bitDepth / 8))

/-- Two little-endian bytes of a 16-bit value (`DataView.setUint16`). -/
def u16le (v : ℕ) : List ℕ := [v % 256, v / 256 % 256]

/-- Four little-endian bytes of a 32-bit value (`DataView.setUint32`). -/
def u32le (v : ℕ) : List ℕ :=
  [v % 256, v / 256 % 256, v / 65536 % 256, v / 16777216 % 256]

/-- Little-endian decoding of a 4-byte slice (how a reader interprets
header bytes such as 4-7 and 40-43). -/
def decodeU32LE (bs : List ℕ) : ℕ :=
  bs.getD 0 0 + 256 * bs.getD 1 0 + 65536 * bs.getD 2 0 + 16777216 * bs.getD 3 0

/-- JS `ToIntegerOrInfinity`, the implicit conversion applied by
`DataView.setInt16` to a non-integral argument: truncation toward zero. -/
def truncInt (x : α) : ℤ := if x < 0 then -⌊-x⌋ else ⌊x⌋

/-- The 16-bit sample quantizer of `encodeWAV` (lines 214-217): clamp to
`[-1, 1]`, scale negatives by `0x8000` and non-negatives by `0x7FFF`, and
let `setInt16` truncate toward zero. -/
def quantize16 (s : α) : ℤ :=
  let c := clamp s (-1) 1
  truncInt (if c < 0 then c * 32768 else c * 32767)

/-- The 24-bit sample quantizer of `encodeWAV` (lines 202-205): clamp,
scale negatives by `0x800000` and non-negatives by `0x7FFFFF`, then
`Math.round` (half-up, `⌊x + 1/2⌋`). -/
def quantize24 (s : α) : ℤ :=
  let c := clamp s (-1) 1
  ⌊(if c < 0 then c * 8388608 else c * 8388607) + 1/2⌋

/-- Little-endian byte pair written by `setInt16` for an in-range 16-bit
value (two's complement). -/
def int16ToBytes (v : ℤ) : List ℕ :=
  let u := (v % 65536).toNat
  [u % 256, u / 256]

/-- Little-endian byte triple written for a 24-bit value
(`val & 0xFF, (val >> 8) & 0xFF, (val >> 16) & 0xFF`, lines 206-208). -/
def int24ToBytes (v : ℤ) : List ℕ :=
  let u := (v % 16777216).toNat
  [u % 256, u / 256 % 256, u / 65536 % 256]

/-- Reassemble a signed 16-bit value from its little-endian byte pair
(what a 16-bit PCM WAV reader does). -/
def bytesToInt16 (lo hi : ℕ) : ℤ :=
  let u := lo + 256 * hi
  if u < 32768 then (u : ℤ) else (u : ℤ) - 65536

/-- Modelled from the spec: the repository contains no WAV decoder (only
the encoder in `src/App.tsx`), and §6 fixes the decode scaling as the
inverse of the encode scaling, "16-bit signed PCM (scale ±1 to
±32767/±32768)": negative code values divide by 32768, non-negative ones
by 32767. -/
def decodeSample16 (v : ℤ) : α :=
  if v < 0 then (v : α) / 32768 else (v : α) / 32767

/-- The interleaved 16-bit data section: per frame, per channel, the two
bytes of the quantized sample. -/
def encodeChannel16 (samples : List α) : List ℕ :=
  (samples.map fun s => int16ToBytes (quantize16 s)).flatten

/-- Decode a 16-bit PCM byte stream back to float samples (reader side,
modelled from the spec's §6 sample-data contract). -/
def decodeChannel16 : List ℕ → List α
  | lo :: hi :: rest => decodeSample16 (bytesToInt16 lo hi) :: decodeChannel16 rest
  | _ => []

/-- The 32-bit float path of `encodeWAV` (lines 193-199) writes each
sample with `setFloat32` without clamping or rescaling: the stored bits
are exactly the sample's float32 bits, so at the level of stored sample
values the write is the identity. -/
def encodeChannel32 (samples : List α) : List α := samples.map fun s => s

/-- Reading the 32-bit float data back (`getFloat32` on the same bits)
returns the stored values unchanged. -/
def decodeChannel32 (samples : List α) : List α := samples.map fun s => s

/-- `encodeWAV` (lines 149-223): the 44-byte RIFF/WAVE header followed by
the interleaved little-endian sample data.  `f32` is the host
`DataView.setFloat32` byte encoding (IEEE 754 binary32, little-endian),
passed as a parameter since IEEE bit patterns are outside this embedding;
no verified claim depends on its values. -/
def encodeWAV (numChannels sampleRate frames : ℕ) (channels : List (List α))
    (fmt : ExportFormat) (f32 : α → List ℕ) : List ℕ :=
  let bytesPerSample := fmt.bitDepth / 8
  let blockAlign := numChannels * bytesPerSample
  let byteRate := sampleRate * blockAlign
  let dataSize := wavDataSize numChannels frames fmt
  let header :=
    [82, 73, 70, 70] ++ u32le (36 + dataSize) ++
    [87, 65, 86, 69] ++ [102, 109, 116, 32] ++
    u32le 16 ++ u16le fmt.formatTag ++ u16le numChannels ++
    u32le sampleRate ++ u32le byteRate ++ u16le blockAlign ++
    u16le fmt.bitDepth ++ [100, 97, 116, 97] ++ u32le dataSize
  let sampleAt : ℕ → ℕ → α := fun ch i => (channels.getD ch []).getD i 0
  let data :=
    ((List.range frames).map fun i =>
      ((List.range numChannels).map fun ch =>
        match fmt with
        | .wav32 => f32 (sampleAt ch i)
        | .wav24 => int24ToBytes (quantize24 (sampleAt ch i))
        | .wav16 => int16ToBytes (quantize16 (sampleAt ch i))).flatten).flatten
  header ++ data

/-! ### Well-formedness and shared helper lemmas -/

/-- Allocation well-formedness: every object id the state holds was
allocated before the current counter value (true of every state the
engine actually reaches, since ids are drawn from the counter). -/
def EngineWF (st : EngineState α) : Prop :=
  ∀ c, st.audioContext = some c → c.id < st.allocCounter

/-- A dummy `MathFns` instantiation over `ℚ` for concrete witnesses whose
statements do not depend on the transcendental functions.  `pow` is
`fun b _ => b`, which agrees with the real `Math.pow b e` whenever the
exponent used is 1. -/
def mlQ0 : MathFns ℚ := ⟨0, fun x => x, fun b _ => b, fun x => x⟩

/-- A concrete engine state with a live context but no loaded buffer. -/
def noBufferState : EngineState ℚ :=
  ⟨some ⟨0, 44100⟩, none, none, -1, 0, 0, false, 1⟩

/-- A concrete well-formed engine state: live context id 0, a loaded
one-frame buffer (id 1), empty impulse cache, counter 2. -/
def liveState : EngineState ℚ :=
  ⟨some ⟨0, 1⟩, some ⟨1, 1, [0], [0]⟩, none, -1, 0, 0, false, 2⟩

/-- A concrete `AnalysisResult` with an empty `spectralBalance`. -/
def emptyBalanceAnalysis : AnalysisResult ℚ :=
  ⟨1/10, 3, 20, "C", "major", 120, [], 1/2, 1/2⟩

/-- Noise stream for a first offline render (raw `Math.random` values). -/
def c1Noise1 : ℕ → ℚ := fun _ => 3/4

/-- A different noise stream, as a second render draws fresh randomness. -/
def c1Noise2 : ℕ → ℚ := fun _ => 1/2

/-- Concrete settings for the C1 scenario: defaults with an audible
reverb send (`mix = 1/2`) and `decay = 1` (so that `mlQ0.pow`, which is
`fun b _ => b`, agrees with the real `Math.pow` at the exponent used). -/
def c1Settings : MasteringSettings ℚ :=
  { DEFAULT_SETTINGS with reverb := ⟨1/2, 1⟩ }

/-- First offline render of the C1 scenario. -/
def c1First : Except String (ChainGraph ℚ × EngineState ℚ) :=
  renderOffline liveState c1Settings mlQ0 c1Noise1

/-- The engine state after the first render. -/
def c1SecondState : EngineState ℚ :=
  match c1First with
  | .ok (_, st) => st
  | .error _ => liveState

/-- Second, successive offline render with the same settings and buffer
but fresh randomness. -/
def c1Second : Except String (ChainGraph ℚ × EngineState ℚ) :=
  renderOffline c1SecondState c1Settings mlQ0 c1Noise2

/-- First sample of the convolver impulse content of a successful render. -/
def reverbHeadOf (r : Except String (ChainGraph ℚ × EngineState ℚ)) : Option ℚ :=
  match r with
  | .ok (g, _) => g.reverbLeft.head?
  | .error _ => none

/-- The host math functions at `ℝ`: `Math.PI`, `Math.tanh`, `Math.pow`
(real rpow), `Math.log10` (logarithm base 10).  This is the faithful
real-number instantiation used to state the heuristic-engine claims;
it is noncomputable only because `ℝ` itself is. -/
noncomputable def realFns : MathFns ℝ :=
  ⟨Real.pi, Real.tanh, fun b e => b ^ e, fun x => Real.logb 10 x⟩

theorem createImpulseResponse_not_live (st : EngineState α) (ctx : Ctx)
    (dur dec : α) (rev : Bool) (ml : MathFns α) (noise : ℕ → α)
    (h : some ctx ≠ st.audioContext) :
    (createImpulseResponse st ctx dur dec rev ml noise).2.impulseResponseCache
      = st.impulseResponseCache ∧
    (createImpulseResponse st ctx dur dec rev ml noise).2.lastDecayValue
      = st.lastDecayValue ∧
    (createImpulseResponse st ctx dur dec rev ml noise).1.id = st.allocCounter := by
  rcases hc : st.impulseResponseCache with _ | cached <;>
    simp [createImpulseResponse, synthImpulse, hc, h]

/-! ### C7 -/

/-- C7: for every stereo input pair, with `stereoWidth = 0` and a
transparent stereo-bass filter (the 0 dB low shelf acting as the
identity), the M/S stage `mid = (L+R)/2`, `side = (L-R)/2`, side scaled
by `1 + stereoWidth`, recombined as `L = mid + side`, `R = mid - side`,
reproduces the input exactly. -/
theorem C7_ms_identity (w : α) (sideFx : α → α) (hw : w = 0)
    (hfx : ∀ x, sideFx x = x) (l r : α) :
    msStage w sideFx l r = (l, r) := by
  subst hw
  simp only [msStage, hfx, Prod.mk.injEq]
  constructor <;> ring

theorem C7_ms_identity_witness :
    msStage (0 : ℚ) (fun x => x) 3 5 = (3, 5) :=
  C7_ms_identity 0 (fun x => x) rfl (fun _ => rfl) 3 5

/-! ### C8 -/

/-- C8: encoding a 2-channel, 44100 Hz, 16-bit buffer of exactly 1000
frames yields `dataSize = 1000 * 2 * 2 = 4000`; header bytes 4-7 decode
little-endian to `36 + dataSize = 4036` and bytes 40-43 decode to
`4000`, whatever the sample contents are. -/
theorem C8_wav_header (channels : List (List ℚ)) (f32 : ℚ → List ℕ) :
    wavDataSize 2 1000 .wav16 = 4000 ∧
    decodeU32LE (((encodeWAV 2 44100 1000 channels .wav16 f32).drop 4).take 4) = 4036 ∧
    decodeU32LE (((encodeWAV 2 44100 1000 channels .wav16 f32).drop 40).take 4) = 4000 :=
  ⟨rfl, rfl, rfl⟩

/-! ### C2 -/

/-- C2 (amended): with no buffer loaded, `renderOffline` fails with the
observable `"No Audio"` error, but `play` returns silently with no
effect: the state is unchanged and no graph is built or started. -/
theorem C2_no_buffer (st : EngineState α) (s : MasteringSettings α)
    (ml : MathFns α) (noise : ℕ → α) (off now : α)
    (h : st.audioBuffer = none) :
    renderOffline st s ml noise = .error "No Audio" ∧
    play st off s ml noise now = (st, none) := by
  constructor
  · unfold renderOffline
    rw [h]
  · unfold play
    rw [h]
    rcases hc : st.audioContext with _ | c <;> rfl

/-- C2 counterexample: at a concrete state with no loaded buffer, `play`
returns the unchanged state and starts nothing - a silent no-op with no
observable `NoBufferLoaded` error condition, contradicting the claim
that playback start "fails ... rather than returning silently with no
effect".  (`renderOffline` does fail observably; `play` does not.) -/
theorem C2_counterexample :
    play noBufferState 0 (DEFAULT_SETTINGS (α := ℚ)) mlQ0 (fun _ => 0) 0
      = (noBufferState, none) := rfl

theorem C2_no_buffer_witness :
    renderOffline noBufferState (DEFAULT_SETTINGS (α := ℚ)) mlQ0 (fun _ => 0)
      = .error "No Audio" ∧
    play noBufferState 0 (DEFAULT_SETTINGS (α := ℚ)) mlQ0 (fun _ => 0) 0
      = (noBufferState, none) :=
  C2_no_buffer noBufferState (DEFAULT_SETTINGS (α := ℚ)) mlQ0 (fun _ => 0) 0 0 rfl

/-! ### C9 -/

/-- C9: a `createImpulseResponse` call on any context other than the
engine's live context leaves the cache fields untouched and never reads
the cache (its result is the freshly allocated buffer); consequently an
offline render leaves `impulseResponseCache` and `lastDecayValue`
exactly as they were. -/
theorem C9_offline_cache_frame :
    (∀ (st : EngineState α) (ctx : Ctx) (dur dec : α) (rev : Bool)
       (ml : MathFns α) (noise : ℕ → α),
       some ctx ≠ st.audioContext →
       (createImpulseResponse st ctx dur dec rev ml noise).2.impulseResponseCache
         = st.impulseResponseCache ∧
       (createImpulseResponse st ctx dur dec rev ml noise).2.lastDecayValue
         = st.lastDecayValue ∧
       (createImpulseResponse st ctx dur dec rev ml noise).1.id = st.allocCounter) ∧
    (∀ (st : EngineState α) (s : MasteringSettings α) (ml : MathFns α)
       (noise : ℕ → α) (g : ChainGraph α) (st2 : EngineState α),
       EngineWF st → renderOffline st s ml noise = .ok (g, st2) →
       st2.impulseResponseCache = st.impulseResponseCache ∧
       st2.lastDecayValue = st.lastDecayValue) := by
  refine ⟨fun st ctx dur dec rev ml noise h =>
    createImpulseResponse_not_live st ctx dur dec rev ml noise h, ?_⟩
  intro st s ml noise g st2 hwf hrun
  obtain ⟨ac, ab, cache, ldv, stt, pa, ip, cnt⟩ := st
  have hwf' : ∀ c, ac = some c → c.id < cnt := hwf
  rcases ab with _ | buf
  · simp [renderOffline] at hrun
  · simp only [renderOffline, Except.ok.injEq, Prod.mk.injEq] at hrun
    obtain ⟨-, hst2⟩ := hrun
    have hne : some (⟨cnt, buf.sampleRate⟩ : Ctx) ≠ ac := by
      rcases hac : ac with _ | c
      · simp
      · intro hcon
        rw [Option.some_inj] at hcon
        have hlt := hwf' c hac
        rw [← hcon] at hlt
        exact absurd hlt (lt_irrefl _)
    rw [← hst2]
    exact ⟨(createImpulseResponse_not_live _ _ _ _ _ _ _ hne).1,
           (createImpulseResponse_not_live _ _ _ _ _ _ _ hne).2.1⟩

theorem C9_offline_cache_frame_witness :
    (createImpulseResponse liveState ⟨5, 1⟩ 3 2 false mlQ0
        (fun _ => 0)).2.impulseResponseCache = liveState.impulseResponseCache ∧
    (createImpulseResponse liveState ⟨5, 1⟩ 3 2 false mlQ0
        (fun _ => 0)).2.lastDecayValue = liveState.lastDecayValue := by
  have h := (C9_offline_cache_frame (α := ℚ)).1 liveState ⟨5, 1⟩ 3 2 false mlQ0
    (fun _ => 0) (by decide)
  exact ⟨h.1, h.2.1⟩

/-! ### C10 -/

theorem applySpectralEq_length (sb : List α) :
    ∀ (l : List (EQBand α)) (j : ℕ), (applySpectralEq sb l j).length = l.length := by
  intro l
  induction l with
  | nil => intro j; rfl
  | cons b rest ih =>
      intro j
      simp only [applySpectralEq, List.length_cons, ih]

theorem applySpectralEq_get?_of_ge (sb : List α) :
    ∀ (l : List (EQBand α)) (j i : ℕ), sb.length ≤ j + i →
      (applySpectralEq sb l j).get? i = l.get? i := by
  intro l
  induction l with
  | nil => intro j i _; rfl
  | cons b rest ih =>
      intro j i hle
      cases i with
      | zero =>
          have hnone : sb.get? j = none :=
            List.get?_eq_none.mpr (by omega)
          simp only [applySpectralEq, hnone, List.get?_cons_zero]
      | succ i =>
          simp only [applySpectralEq, List.get?_cons_succ]
          exact ih (j + 1) i (by omega)

theorem generateAiSettings_eq (ml : MathFns α) (a : AnalysisResult α) :
    (generateAiSettings ml a).eq
      = applySpectralEq a.spectralBalance (DEFAULT_SETTINGS (α := α)).eq 0 := by
  simp only [generateAiSettings, apply_ite (MasteringSettings.eq), ite_self]

/-- C10: when `spectralBalance` is shorter than the 14-band eq list,
`generateAiSettings` never reads past its end (out-of-range access is the
JS `undefined` check, modelled by `List.get?`), and every band at an
index at or beyond `spectralBalance.length` keeps its default gain 0. -/
theorem C10_short_spectral_balance (ml : MathFns α) (a : AnalysisResult α) (i : ℕ)
    (hlen : a.spectralBalance.length ≤ i) :
    (generateAiSettings ml a).eq.length = 14 ∧
    ∀ band, (generateAiSettings ml a).eq.get? i = some band → band.gain = 0 := by
  rw [generateAiSettings_eq]
  constructor
  · rw [applySpectralEq_length]
    simp [DEFAULT_SETTINGS, DEFAULT_EQ_FREQUENCIES]
  · intro band hband
    rw [applySpectralEq_get?_of_ge a.spectralBalance _ 0 i (by omega)] at hband
    simp only [DEFAULT_SETTINGS, List.get?_map] at hband
    rcases hf : (DEFAULT_EQ_FREQUENCIES (α := α)).get? i with _ | f
    · rw [hf] at hband
      exact absurd hband (by simp)
    · rw [hf] at hband
      simp only [Option.map_some', Option.some_inj] at hband
      rw [← hband]

theorem C10_short_spectral_balance_witness :
    (generateAiSettings mlQ0 emptyBalanceAnalysis).eq.length = 14 ∧
    ∀ band, (generateAiSettings mlQ0 emptyBalanceAnalysis).eq.get? 0 = some band →
      band.gain = 0 :=
  C10_short_spectral_balance mlQ0 emptyBalanceAnalysis 0 (by decide)

/-! ### C6 -/

theorem stagesFrom_length (n : ℕ) :
    ∀ (l : List (EQBand α)) (i : ℕ), (stagesFrom n l i).length = l.length := by
  intro l
  induction l with
  | nil => intro i; rfl
  | cons b rest ih => intro i; simp only [stagesFrom, List.length_cons, ih]

theorem stagesFrom_get? (n : ℕ) :
    ∀ (l : List (EQBand α)) (i j : ℕ),
      (stagesFrom n l i).get? j
        = (l.get? j).map fun b => ⟨kindFor (i + j) n, b.frequency, b.gain, 1⟩ := by
  intro l
  induction l with
  | nil => intro i j; cases j <;> rfl
  | cons b rest ih =>
      intro i j
      cases j with
      | zero => rfl
      | succ j =>
          simp only [stagesFrom, List.get?_cons_succ, ih (i + 1) j]
          have : i + 1 + j = i + (j + 1) := by omega
          rw [this]

theorem stagesFrom_map_pair (n : ℕ) :
    ∀ (l : List (EQBand α)) (i : ℕ),
      (stagesFrom n l i).map (fun p => (p.frequency, p.gain))
        = l.map fun b => (b.frequency, b.gain) := by
  intro l
  induction l with
  | nil => intro i; rfl
  | cons b rest ih => intro i; simp only [stagesFrom, List.map_cons, ih]

theorem stagesFrom_mem (n : ℕ) :
    ∀ (l : List (EQBand α)) (i : ℕ) (p : FilterParams α), p ∈ stagesFrom n l i →
      ∃ b ∈ l, p.frequency = b.frequency ∧ p.gain = b.gain := by
  intro l
  induction l with
  | nil => intro i p hp; exact absurd hp (by simp [stagesFrom])
  | cons b rest ih =>
      intro i p hp
      rcases List.mem_cons.mp hp with hp | hp
      · exact ⟨b, List.mem_cons_self b rest, by rw [hp], by rw [hp]⟩
      · obtain ⟨b', hb', h1, h2⟩ := ih (i + 1) p hp
        exact ⟨b', List.mem_cons_of_mem b hb', h1, h2⟩

theorem stagesFrom_pairwise (n : ℕ) :
    ∀ (l : List (EQBand α)) (i : ℕ),
      l.Pairwise (fun a b => a.frequency ≤ b.frequency) →
      (stagesFrom n l i).Pairwise fun p q => p.frequency ≤ q.frequency := by
  intro l
  induction l with
  | nil => intro i _; exact List.Pairwise.nil
  | cons b rest ih =>
      intro i hl
      rw [List.pairwise_cons] at hl
      rw [stagesFrom, List.pairwise_cons]
      refine ⟨?_, ih (i + 1) hl.2⟩
      intro q hq
      obtain ⟨b', hb', h1, -⟩ := stagesFrom_mem n rest (i + 1) q hq
      rw [h1]
      exact hl.1 b' hb'

theorem sortedEqBands_perm (eq : List (EQBand α)) :
    (sortedEqBands eq).Perm eq :=
  List.mergeSort_perm eq _

theorem sortedEqBands_sorted (eq : List (EQBand α)) :
    (sortedEqBands eq).Pairwise fun a b => a.frequency ≤ b.frequency := by
  have h := @List.sorted_mergeSort (EQBand α)
    (fun a b => decide (a.frequency ≤ b.frequency))
    (fun a b c h1 h2 => by
      simp only [decide_eq_true_eq] at h1 h2 ⊢
      exact le_trans h1 h2)
    (fun a b => by
      simp only [Bool.or_eq_true, decide_eq_true_eq]
      exact le_total a.frequency b.frequency)
    eq
  exact h.imp fun hab => by simpa using hab

/-- C6: for any settings, the EQ stage list built by the graph builders
is sorted ascending by frequency; with at least two bands the first stage
is a low shelf, the last a high shelf, and every interior stage is
peaking with Q = 1; the multiset of (frequency, gain) pairs is exactly
that of the configured bands (band identity follows frequency order, not
array index); and both the live `setupGraph` and the offline
`renderOffline` use exactly this list. -/
theorem C6_eq_stage_list (s : MasteringSettings α) (hlen : 2 ≤ s.eq.length) :
    (eqStages s.eq).length = s.eq.length ∧
    (eqStages s.eq).Pairwise (fun p q => p.frequency ≤ q.frequency) ∧
    (∀ p, (eqStages s.eq).get? 0 = some p → p.kind = .lowshelf) ∧
    (∀ p, (eqStages s.eq).get? (s.eq.length - 1) = some p → p.kind = .highshelf) ∧
    (∀ i p, 0 < i → i < s.eq.length - 1 → (eqStages s.eq).get? i = some p →
       p.kind = .peaking ∧ p.q = 1) ∧
    ((eqStages s.eq).map (fun p => (p.frequency, p.gain))).Perm
      (s.eq.map fun b => (b.frequency, b.gain)) ∧
    (∀ (st : EngineState α) (ml : MathFns α) (noise : ℕ → α) (g : ChainGraph α)
       (st1 : EngineState α),
       setupGraph st s ml noise = (some g, st1) → g.eqStages = eqStages s.eq) ∧
    (∀ (st : EngineState α) (ml : MathFns α) (noise : ℕ → α) (g : ChainGraph α)
       (st1 : EngineState α),
       renderOffline st s ml noise = .ok (g, st1) → g.eqStages = eqStages s.eq) := by
  have hslen : (sortedEqBands s.eq).length = s.eq.length :=
    (sortedEqBands_perm s.eq).length_eq
  refine ⟨?_, ?_, ?_, ?_, ?_, ?_, ?_, ?_⟩
  · rw [eqStages, stagesFrom_length, hslen]
  · rw [eqStages]
    exact stagesFrom_pairwise _ _ 0 (sortedEqBands_sorted s.eq)
  · intro p hp
    rw [eqStages, stagesFrom_get?] at hp
    rcases hg : (sortedEqBands s.eq).get? 0 with _ | b
    · rw [hg] at hp; exact absurd hp (by simp)
    · rw [hg] at hp
      simp only [Option.map_some', Option.some_inj] at hp
      rw [← hp]
      simp [kindFor]
  · intro p hp
    rw [eqStages, stagesFrom_get?] at hp
    rcases hg : (sortedEqBands s.eq).get? (s.eq.length - 1) with _ | b
    · rw [hg] at hp; exact absurd hp (by simp)
    · rw [hg] at hp
      simp only [Option.map_some', Option.some_inj] at hp
      rw [← hp]
      simp only [kindFor, Nat.zero_add, hslen]
      rw [if_neg (by omega)]
      simp
  · intro i p hi hilt hp
    rw [eqStages, stagesFrom_get?] at hp
    rcases hg : (sortedEqBands s.eq).get? i with _ | b
    · rw [hg] at hp; exact absurd hp (by simp)
    · rw [hg] at hp
      simp only [Option.map_some', Option.some_inj] at hp
      rw [← hp]
      constructor
      · simp only [kindFor, Nat.zero_add, hslen]
        rw [if_neg (by omega), if_neg (by omega)]
      · rfl
  · rw [eqStages, stagesFrom_map_pair]
    exact (sortedEqBands_perm s.eq).map _
  · intro st ml noise g st1 hrun
    obtain ⟨ac, ab, cache, ldv, stt, pa, ip, cnt⟩ := st
    rcases ac with _ | c
    · rcases ab with _ | buf <;> simp [setupGraph] at hrun
    · rcases ab with _ | buf
      · simp [setupGraph] at hrun
      · simp only [setupGraph, Prod.mk.injEq, Option.some_inj] at hrun
        obtain ⟨hg, -⟩ := hrun
        rw [← hg]
  · intro st ml noise g st1 hrun
    obtain ⟨ac, ab, cache, ldv, stt, pa, ip, cnt⟩ := st
    rcases ab with _ | buf
    · simp [renderOffline] at hrun
    · simp only [renderOffline, Except.ok.injEq, Prod.mk.injEq] at hrun
      obtain ⟨hg, -⟩ := hrun
      rw [← hg]

theorem C6_eq_stage_list_witness :
    (eqStages (DEFAULT_SETTINGS (α := ℚ)).eq).length
        = (DEFAULT_SETTINGS (α := ℚ)).eq.length ∧
    (eqStages (DEFAULT_SETTINGS (α := ℚ)).eq).Pairwise
        (fun p q => p.frequency ≤ q.frequency) ∧
    (∀ p, (eqStages (DEFAULT_SETTINGS (α := ℚ)).eq).get? 0 = some p →
        p.kind = .lowshelf) ∧
    (∀ p, (eqStages (DEFAULT_SETTINGS (α := ℚ)).eq).get?
          ((DEFAULT_SETTINGS (α := ℚ)).eq.length - 1) = some p →
        p.kind = .highshelf) ∧
    (∀ i p, 0 < i → i < (DEFAULT_SETTINGS (α := ℚ)).eq.length - 1 →
        (eqStages (DEFAULT_SETTINGS (α := ℚ)).eq).get? i = some p →
        p.kind = .peaking ∧ p.q = 1) ∧
    ((eqStages (DEFAULT_SETTINGS (α := ℚ)).eq).map
        (fun p => (p.frequency, p.gain))).Perm
      ((DEFAULT_SETTINGS (α := ℚ)).eq.map fun b => (b.frequency, b.gain)) ∧
    (∀ (st : EngineState ℚ) (ml : MathFns ℚ) (noise : ℕ → ℚ) (g : ChainGraph ℚ)
       (st1 : EngineState ℚ),
       setupGraph st (DEFAULT_SETTINGS (α := ℚ)) ml noise = (some g, st1) →
       g.eqStages = eqStages (DEFAULT_SETTINGS (α := ℚ)).eq) ∧
    (∀ (st : EngineState ℚ) (ml : MathFns ℚ) (noise : ℕ → ℚ) (g : ChainGraph ℚ)
       (st1 : EngineState ℚ),
       renderOffline st (DEFAULT_SETTINGS (α := ℚ)) ml noise = .ok (g, st1) →
       g.eqStages = eqStages (DEFAULT_SETTINGS (α := ℚ)).eq) :=
  C6_eq_stage_list (DEFAULT_SETTINGS (α := ℚ)) (by decide)

/-! ### C4 -/

theorem bytesToInt16_int16ToBytes (v : ℤ) (h1 : -32768 ≤ v) (h2 : v < 32768) :
    bytesToInt16 ((v % 65536).toNat % 256) ((v % 65536).toNat / 256) = v := by
  simp only [bytesToInt16]
  split <;> omega

theorem quantize16_range (s : α) :
    -32768 ≤ quantize16 s ∧ quantize16 s < 32768 := by
  have hc1 : (-1 : α) ≤ clamp s (-1) 1 := by
    simp only [clamp]
    exact le_min (by norm_num) (le_max_left _ _)
  have hc2 : clamp s (-1) 1 ≤ 1 := by
    simp only [clamp]
    exact min_le_left _ _
  by_cases hneg : clamp s (-1) 1 < 0
  · have hq : quantize16 s = -⌊-(clamp s (-1) 1 * 32768)⌋ := by
      simp only [quantize16, truncInt]
      rw [if_pos hneg, if_pos (by nlinarith : clamp s (-1) 1 * 32768 < 0)]
    rw [hq]
    constructor
    · have : ⌊-(clamp s (-1) 1 * 32768)⌋ ≤ 32768 := by
        have h : -(clamp s (-1) 1 * 32768) ≤ (32768 : α) := by nlinarith
        calc ⌊-(clamp s (-1) 1 * 32768)⌋ ≤ ⌊(32768 : α)⌋ := Int.floor_le_floor h
          _ = 32768 := by norm_num
      omega
    · have : (0 : ℤ) ≤ ⌊-(clamp s (-1) 1 * 32768)⌋ :=
        Int.floor_nonneg.mpr (by nlinarith)
      omega
  · push_neg at hneg
    have hq : quantize16 s = ⌊clamp s (-1) 1 * 32767⌋ := by
      simp only [quantize16, truncInt]
      rw [if_neg (show ¬ clamp s (-1) 1 < 0 from not_lt.mpr hneg),
        if_neg (show ¬ clamp s (-1) 1 * 32767 < 0 from not_lt.mpr (by nlinarith))]
    rw [hq]
    constructor
    · have : (0 : ℤ) ≤ ⌊clamp s (-1) 1 * 32767⌋ :=
        Int.floor_nonneg.mpr (by nlinarith)
      omega
    · have : ⌊clamp s (-1) 1 * 32767⌋ ≤ 32767 := by
        have h : clamp s (-1) 1 * 32767 ≤ (32767 : α) := by nlinarith
        calc ⌊clamp s (-1) 1 * 32767⌋ ≤ ⌊(32767 : α)⌋ := Int.floor_le_floor h
          _ = 32767 := by norm_num
      omega

theorem roundtrip16_close (s : α) (h1 : -1 ≤ s) (h2 : s ≤ 1) :
    |decodeSample16 (quantize16 s) - s| < 1/32767 := by
  have hclamp : clamp s (-1) 1 = s := by
    simp only [clamp]
    rw [max_eq_right h1, min_eq_right h2]
  by_cases hneg : s < 0
  · have hq : quantize16 s = -⌊-(s * 32768)⌋ := by
      simp only [quantize16, truncInt, hclamp]
      rw [if_pos hneg, if_pos (by nlinarith : s * 32768 < 0)]
    rw [hq]
    have hq0 : -⌊-(s * 32768)⌋ ≤ (0 : ℤ) := by
      have : (0 : ℤ) ≤ ⌊-(s * 32768)⌋ := Int.floor_nonneg.mpr (by nlinarith)
      omega
    have hdec : decodeSample16 (α := α) (-⌊-(s * 32768)⌋) = ((-⌊-(s * 32768)⌋ : ℤ) : α) / 32768 := by
      rcases lt_or_eq_of_le hq0 with hlt | heq
      · simp only [decodeSample16]
        rw [if_pos hlt]
      · have h0 : ⌊-(s * 32768)⌋ = 0 := by omega
        simp [decodeSample16, h0]
    rw [hdec]
    have hfl : (⌊-(s * 32768)⌋ : α) ≤ -(s * 32768) := Int.floor_le _
    have hfl2 : -(s * 32768) < (⌊-(s * 32768)⌋ : α) + 1 := Int.lt_floor_add_one _
    rw [abs_lt]
    push_cast
    constructor <;> [nlinarith; nlinarith]
  · push_neg at hneg
    have hq : quantize16 s = ⌊s * 32767⌋ := by
      simp only [quantize16, truncInt, hclamp]
      rw [if_neg (show ¬ s < 0 from not_lt.mpr hneg),
        if_neg (show ¬ s * 32767 < 0 from not_lt.mpr (by nlinarith))]
    rw [hq]
    have hq0 : (0 : ℤ) ≤ ⌊s * 32767⌋ := Int.floor_nonneg.mpr (by nlinarith)
    have hdec : decodeSample16 (α := α) ⌊s * 32767⌋ = ((⌊s * 32767⌋ : ℤ) : α) / 32767 := by
      unfold decodeSample16
      rw [if_neg (by omega)]
    rw [hdec]
    have hfl : (⌊s * 32767⌋ : α) ≤ s * 32767 := Int.floor_le _
    have hfl2 : s * 32767 < (⌊s * 32767⌋ : α) + 1 := Int.lt_floor_add_one _
    rw [abs_lt]
    constructor <;> [nlinarith; nlinarith]

theorem decodeChannel16_encodeChannel16_cons (s : α) (rest : List α) :
    decodeChannel16 (α := α) (encodeChannel16 (s :: rest))
      = decodeSample16 (bytesToInt16 ((quantize16 s % 65536).toNat % 256)
          ((quantize16 s % 65536).toNat / 256))
        :: decodeChannel16 (α := α) (encodeChannel16 rest) := by
  simp only [encodeChannel16, List.map_cons, List.flatten_cons, int16ToBytes,
    List.cons_append, List.nil_append, decodeChannel16]
  rfl

/-- C4 (amended): the 16-bit PCM round trip reproduces every in-range
sample to within a strict `1/32767` error bound (the encoder truncates
toward zero after scaling positives by 32767, so the claimed `1/32768`
bound fails; see the counterexample), and the 32-bit float path is
exactly lossless. -/
theorem C4_wav_roundtrip :
    (∀ samples : List α, (∀ s ∈ samples, -1 ≤ s ∧ s ≤ 1) →
       List.Forall₂ (fun d s0 => |d - s0| < 1/32767)
         (decodeChannel16 (encodeChannel16 samples)) samples) ∧
    (∀ samples : List α, decodeChannel32 (encodeChannel32 samples) = samples) := by
  constructor
  · intro samples
    induction samples with
    | nil => intro _; simp [encodeChannel16, decodeChannel16]
    | cons s rest ih =>
        intro hmem
        rw [decodeChannel16_encodeChannel16_cons]
        have hs := hmem s (List.mem_cons_self s rest)
        have hrange := quantize16_range s
        rw [bytesToInt16_int16ToBytes _ hrange.1 hrange.2]
        exact List.Forall₂.cons (roundtrip16_close s hs.1 hs.2)
          (ih fun x hx => hmem x (List.mem_cons_of_mem s hx))
  · intro samples
    simp [encodeChannel32, decodeChannel32]

theorem C4_wav_roundtrip_witness :
    List.Forall₂ (fun d s0 => |d - s0| < 1/32767)
      (decodeChannel16 (α := ℚ) (encodeChannel16 [(1:ℚ)/2, -(1:ℚ)])) [(1:ℚ)/2, -(1:ℚ)] :=
  (C4_wav_roundtrip (α := ℚ)).1 [(1:ℚ)/2, -(1:ℚ)] (by
    intro x hx
    simp only [List.mem_cons, List.not_mem_nil, or_false] at hx
    rcases hx with rfl | rfl <;> constructor <;> norm_num)

/-- C4 counterexample: the sample value `2/65535` lies in `[-1, 1]`, its
16-bit encode-decode round trip returns 0, and the error `2/65535`
exceeds the claimed per-sample bound `1/32768`. -/
theorem C4_counterexample :
    ((-1 : ℚ) ≤ 2/65535 ∧ (2 : ℚ)/65535 ≤ 1) ∧
    decodeChannel16 (α := ℚ) (encodeChannel16 [(2:ℚ)/65535]) = [0] ∧
    ¬ |(0 : ℚ) - 2/65535| ≤ 1/32768 := by
  refine ⟨⟨by norm_num, by norm_num⟩, ?_, ?_⟩
  · have hq : quantize16 ((2:ℚ)/65535) = 0 := by
      have hclamp : clamp ((2:ℚ)/65535) (-1) 1 = 2/65535 := by
        simp only [clamp]
        rw [max_eq_right (by norm_num), min_eq_right (by norm_num)]
      simp only [quantize16, truncInt, hclamp]
      rw [if_neg (show ¬ (2:ℚ)/65535 < 0 by norm_num),
        if_neg (show ¬ (2:ℚ)/65535 * 32767 < 0 by norm_num)]
      rw [Int.floor_eq_zero_iff, Set.mem_Ico]
      constructor <;> norm_num
    rw [decodeChannel16_encodeChannel16_cons, hq]
    norm_num [decodeChannel16, encodeChannel16, decodeSample16, bytesToInt16]
  · rw [zero_sub, abs_neg, abs_of_nonneg (by norm_num : (0:ℚ) ≤ 2/65535)]
    norm_num

/-! ### C5 -/

theorem createImpulseResponse_hit (st : EngineState α) (ctx : Ctx) (dur d : α)
    (rev : Bool) (ml : MathFns α) (noise : ℕ → α) (b : AudioBuffer α)
    (hcache : st.impulseResponseCache = some b)
    (hctx : some ctx = st.audioContext)
    (hdec : |st.lastDecayValue - d| < 1/100) :
    createImpulseResponse st ctx dur d rev ml noise = (b, st) := by
  simp only [createImpulseResponse, hcache]
  rw [if_pos ⟨hctx, hdec⟩]

/-- C5 (amended): on the engine's live context, a first request with an
empty cache synthesizes and stores a buffer, and a second request whose
decay is within 0.01 of the first returns that identical buffer with the
state unchanged; any request on a non-live context, with an empty cache,
or with a decay at least 0.01 away from the stored one, returns a newly
allocated buffer (its id is the current allocation counter). -/
theorem C5_impulse_cache :
    (∀ (st : EngineState α) (ctx : Ctx) (dur d1 d2 : α) (rev : Bool)
       (ml : MathFns α) (n1 n2 : ℕ → α),
       st.impulseResponseCache = none → some ctx = st.audioContext →
       |d1 - d2| < 1/100 →
       createImpulseResponse (createImpulseResponse st ctx dur d1 rev ml n1).2
           ctx dur d2 rev ml n2
         = ((createImpulseResponse st ctx dur d1 rev ml n1).1,
            (createImpulseResponse st ctx dur d1 rev ml n1).2)) ∧
    (∀ (st : EngineState α) (ctx : Ctx) (dur d : α) (rev : Bool)
       (ml : MathFns α) (noise : ℕ → α),
       (some ctx ≠ st.audioContext ∨ st.impulseResponseCache = none ∨
        ¬ |st.lastDecayValue - d| < 1/100) →
       (createImpulseResponse st ctx dur d rev ml noise).1.id = st.allocCounter ∧
       (createImpulseResponse st ctx dur d rev ml noise).2.allocCounter
         = st.allocCounter + 1) := by
  constructor
  · intro st ctx dur d1 d2 rev ml n1 n2 hcache hctx hdec
    obtain ⟨ac, ab, cache, ldv, stt, pa, ip, cnt⟩ := st
    simp only at hcache
    subst hcache
    have hctx' : some ctx = ac := hctx
    simp only [createImpulseResponse, synthImpulse]
    rw [if_pos hctx']
    simp only
    rw [if_pos ⟨hctx', hdec⟩]
  · intro st ctx dur d rev ml noise h
    have hsynth : createImpulseResponse st ctx dur d rev ml noise
        = synthImpulse st ctx dur d rev ml noise := by
      rcases hc : st.impulseResponseCache with _ | b
      · simp only [createImpulseResponse, hc]
      · have hcond : ¬ (some ctx = st.audioContext ∧ |st.lastDecayValue - d| < 1/100) := by
          rcases h with h | h | h
          · exact fun hcc => h hcc.1
          · rw [hc] at h
            exact absurd h (by simp)
          · exact fun hcc => h hcc.2
        simp only [createImpulseResponse, hc]
        rw [if_neg hcond]
    rw [hsynth]
    refine ⟨rfl, ?_⟩
    simp only [synthImpulse]
    split <;> rfl

theorem C5_impulse_cache_witness :
    createImpulseResponse
        (createImpulseResponse liveState ⟨0, 1⟩ 3 2 false mlQ0 (fun _ => 0)).2
        ⟨0, 1⟩ 3 2 false mlQ0 (fun _ => 0)
      = ((createImpulseResponse liveState ⟨0, 1⟩ 3 2 false mlQ0 (fun _ => 0)).1,
         (createImpulseResponse liveState ⟨0, 1⟩ 3 2 false mlQ0 (fun _ => 0)).2) :=
  (C5_impulse_cache (α := ℚ)).1 liveState ⟨0, 1⟩ 3 2 2 false mlQ0
    (fun _ => 0) (fun _ => 0) rfl rfl (by norm_num)

/-- C5 counterexample: two successive impulse requests on the same
context (id 5), with the same decay (difference 0, below 0.01), do not
return the identical buffer: the context is not the engine's live
context (id 0), so nothing is cached and the second request synthesizes
a fresh buffer (distinguishable by its allocation id). -/
theorem C5_counterexample :
    (createImpulseResponse
        (createImpulseResponse liveState ⟨5, 1⟩ 3 2 false mlQ0 (fun _ => 0)).2
        ⟨5, 1⟩ 3 2 false mlQ0 (fun _ => 0)).1
      ≠ (createImpulseResponse liveState ⟨5, 1⟩ 3 2 false mlQ0 (fun _ => 0)).1 :=
  fun h => absurd (congrArg AudioBuffer.id h) (by decide)

/-! ### C1 -/

theorem synthImpulse_noise_congr (st : EngineState α) (ctx : Ctx) (dur dec : α)
    (rev : Bool) (ml : MathFns α) (n1 n2 : ℕ → α)
    (h : ∀ i < 2 * impulseLength ctx.sampleRate dur, n1 i = n2 i) :
    synthImpulse st ctx dur dec rev ml n1 = synthImpulse st ctx dur dec rev ml n2 := by
  have hleft :
      (List.range (impulseLength ctx.sampleRate dur)).map
          (fun i => (n1 (2 * i) * 2 - 1) *
            ((fun i : ℕ =>
              ml.pow (1 - (if rev then ((impulseLength ctx.sampleRate dur : α)) - (i : α)
                else (i : α)) / ((impulseLength ctx.sampleRate dur : α))) dec) i))
        = (List.range (impulseLength ctx.sampleRate dur)).map
          (fun i => (n2 (2 * i) * 2 - 1) *
            ((fun i : ℕ =>
              ml.pow (1 - (if rev then ((impulseLength ctx.sampleRate dur : α)) - (i : α)
                else (i : α)) / ((impulseLength ctx.sampleRate dur : α))) dec) i)) := by
    apply List.map_congr_left
    intro i hi
    rw [List.mem_range] at hi
    rw [h (2 * i) (by omega)]
  have hright :
      (List.range (impulseLength ctx.sampleRate dur)).map
          (fun i => (n1 (2 * i + 1) * 2 - 1) *
            ((fun i : ℕ =>
              ml.pow (1 - (if rev then ((impulseLength ctx.sampleRate dur : α)) - (i : α)
                else (i : α)) / ((impulseLength ctx.sampleRate dur : α))) dec) i))
        = (List.range (impulseLength ctx.sampleRate dur)).map
          (fun i => (n2 (2 * i + 1) * 2 - 1) *
            ((fun i : ℕ =>
              ml.pow (1 - (if rev then ((impulseLength ctx.sampleRate dur : α)) - (i : α)
                else (i : α)) / ((impulseLength ctx.sampleRate dur : α))) dec) i)) := by
    apply List.map_congr_left
    intro i hi
    rw [List.mem_range] at hi
    rw [h (2 * i + 1) (by omega)]
  simp only [synthImpulse]
  rw [hleft, hright]

theorem createImpulseResponse_noise_congr (st : EngineState α) (ctx : Ctx)
    (dur dec : α) (rev : Bool) (ml : MathFns α) (n1 n2 : ℕ → α)
    (h : ∀ i < 2 * impulseLength ctx.sampleRate dur, n1 i = n2 i) :
    createImpulseResponse st ctx dur dec rev ml n1
      = createImpulseResponse st ctx dur dec rev ml n2 := by
  rcases hc : st.impulseResponseCache with _ | b <;>
    simp only [createImpulseResponse, hc]
  · exact synthImpulse_noise_congr st ctx dur dec rev ml n1 n2 h
  · split
    · rfl
    · exact synthImpulse_noise_congr st ctx dur dec rev ml n1 n2 h

/-- C1 (amended): an offline render is a deterministic function of the
settings, the loaded buffer, the engine state and the `Math.random`
draws consumed by the impulse synthesis; in particular two renders that
draw the same noise produce the identical graph (hence bit-identical
output).  Because the offline context always bypasses the impulse cache,
each render draws fresh randomness, so two successive renders need not
be bit-identical - see the counterexample. -/
theorem C1_render_determinism (st : EngineState α) (s : MasteringSettings α)
    (ml : MathFns α) (n1 n2 : ℕ → α) (buf : AudioBuffer α)
    (hbuf : st.audioBuffer = some buf)
    (h : ∀ i < 2 * impulseLength buf.sampleRate (3 : α), n1 i = n2 i) :
    renderOffline st s ml n1 = renderOffline st s ml n2 := by
  obtain ⟨ac, ab, cache, ldv, stt, pa, ip, cnt⟩ := st
  simp only at hbuf
  subst hbuf
  have hcong := createImpulseResponse_noise_congr
    (⟨ac, some buf, cache, ldv, stt, pa, ip, cnt + 1⟩ : EngineState α)
    (⟨cnt, buf.sampleRate⟩ : Ctx) 3 s.reverb.decay false ml n1 n2 h
  simp only [renderOffline]
  rw [hcong]

theorem C1_render_determinism_witness :
    renderOffline liveState (DEFAULT_SETTINGS (α := ℚ)) mlQ0 (fun _ => 0)
      = renderOffline liveState (DEFAULT_SETTINGS (α := ℚ)) mlQ0 (fun i => if i < 100 then 0 else 1) :=
  C1_render_determinism liveState (DEFAULT_SETTINGS (α := ℚ)) mlQ0
    (fun _ => 0) (fun i => if i < 100 then 0 else 1) ⟨1, 1, [0], [0]⟩ rfl
    (by
      intro i hi
      have hlen : impulseLength (α := ℚ) 1 3 = 3 := by
        simp only [impulseLength, Nat.cast_one, one_mul]
        norm_num
        decide
      rw [hlen] at hi
      show (0 : ℚ) = if i < 100 then 0 else 1
      rw [if_pos (by omega)])

theorem impulseLength_one_three : impulseLength (α := ℚ) 1 3 = 3 := by
  simp only [impulseLength, Nat.cast_one, one_mul]
  norm_num
  decide

/-- C1 counterexample: two successive offline renders of the same loaded
buffer with the same settings (reverb mix 1/2, decay 1) build different
graphs: the convolver impulse is synthesized afresh from `Math.random`
on each render (the offline context bypasses the cache), so its first
sample is 1/2 in the first render and 0 in the second.  The rendered
output is the host's function of the graph, so the outputs are not
bit-identical. -/
theorem C1_counterexample :
    reverbHeadOf c1First = some (1/2) ∧ reverbHeadOf c1Second = some 0 := by
  constructor
  · simp only [reverbHeadOf, c1First, renderOffline, liveState, createImpulseResponse,
      synthImpulse, c1Settings, mlQ0, c1Noise1, DEFAULT_SETTINGS, impulseLength_one_three]
    rw [show List.range 3 = [0, 1, 2] from rfl]
    simp only [List.map_cons, List.head?_cons, Option.some_inj]
    norm_num
  · simp only [reverbHeadOf, c1Second, c1SecondState, c1First, renderOffline, liveState,
      createImpulseResponse, synthImpulse, c1Settings, mlQ0, c1Noise1, c1Noise2,
      DEFAULT_SETTINGS]
    norm_num
    rw [impulseLength_one_three]
    rfl

/-! ### C3 -/

/-- C3: at the literal scenario `rms = 0.1`, `crestFactor = 3`,
`spectralFlux = 20`, `lowEnergy = 0.5`, `midEnergy = 0.5` (all other
analysis fields arbitrary), the heuristic engine computes
`estimatedLUFS = -20.6`, `targetLUFS = -10`, `gainNeeded = 10.6`, and
the returned settings have `masterGain = clamp(10^0.2 - 1, 0, 0.8)`,
`ceiling = -0.3`, `softClip = 0.4` (clamped, and no `+0.1` since
`crestFactor ≤ 4`), with the compressor overridden to
`{-16, 2.0, 0.01, 0.15}` because `gainNeeded > 3`. -/
theorem C3_heuristic_literal (a : AnalysisResult ℝ)
    (hrms : a.rms = 1/10) (hcrest : a.crestFactor = 3)
    (hflux : a.spectralFlux = 20) (hlow : a.lowEnergy = 1/2)
    (hmid : a.midEnergy = 1/2) :
    estimatedLUFS realFns a = -20.6 ∧
    targetLUFS realFns a = -10 ∧
    gainNeeded realFns a = 10.6 ∧
    (generateAiSettings realFns a).masterGain
      = clamp ((10 : ℝ) ^ (0.2 : ℝ) - 1) 0 0.8 ∧
    (generateAiSettings realFns a).ceiling = -0.3 ∧
    (generateAiSettings realFns a).softClip = 0.4 ∧
    (generateAiSettings realFns a).compressor = ⟨-16, 2, 0.01, 0.15⟩ := by
  have hE : estimatedLUFS realFns a = -20.6 := by
    simp only [estimatedLUFS, realFns, hrms]
    rw [show (1/10 : ℝ) = (10 : ℝ)⁻¹ by norm_num, Real.logb_inv,
      Real.logb_self_eq_one (b := 10) (by norm_num)]
    norm_num
  have hT : targetLUFS realFns a = -10 := by
    simp only [targetLUFS, hE]
    rw [if_neg (show ¬ (-20.6 : ℝ) > -12 by norm_num),
      if_neg (show ¬ (-20.6 : ℝ) < -24 by norm_num)]
  have hG : gainNeeded realFns a = 10.6 := by
    simp only [gainNeeded, hT, hE]
    norm_num
  refine ⟨hE, hT, hG, ?_, ?_, ?_, ?_⟩
  · simp only [generateAiSettings, hG]
    rw [if_pos (show (10.6 : ℝ) > 1/2 by norm_num),
      if_pos (show (10.6 : ℝ) > 3 by norm_num)]
    dsimp only
    simp only [realFns]
    rw [min_eq_right (by norm_num : (4 : ℝ) ≤ 10.6)]
    norm_num [clamp]
  · simp only [generateAiSettings, hG]
    rw [if_pos (show (10.6 : ℝ) > 1/2 by norm_num),
      if_pos (show (10.6 : ℝ) > 3 by norm_num)]
    dsimp only
    norm_num
  · simp only [generateAiSettings, hG, hcrest]
    rw [if_pos (show (10.6 : ℝ) > 1/2 by norm_num),
      if_pos (show (10.6 : ℝ) > 3 by norm_num)]
    dsimp only
    rw [if_neg (show ¬ (3 : ℝ) > 4 by norm_num)]
    rw [min_eq_right (by norm_num : (4 : ℝ) ≤ 10.6)]
    rw [max_eq_right (by norm_num : (0 : ℝ) ≤ (10.6 : ℝ) - 4)]
    simp only [clamp]
    rw [max_eq_right (by norm_num : (0 : ℝ) ≤ ((10.6 : ℝ) - 4) * (8/100))]
    rw [min_eq_left (by norm_num : ((4 : ℝ)/10) ≤ ((10.6 : ℝ) - 4) * (8/100))]
    simp only [roundTo]
    rw [if_neg (show ¬ (4 : ℝ)/10 < 0 by norm_num)]
    rw [show (4 : ℝ)/10 * (10 : ℝ) ^ (2 : ℕ) = ((40 : ℤ) : ℝ) by push_cast; norm_num]
    rw [round_intCast]
    norm_num
  · simp only [generateAiSettings, hG]
    rw [if_pos (show (10.6 : ℝ) > 1/2 by norm_num),
      if_pos (show (10.6 : ℝ) > 3 by norm_num)]
    dsimp only
    simp only [CompressorSettings.mk.injEq]
    norm_num

theorem C3_heuristic_literal_witness :
    estimatedLUFS realFns ⟨1/10, 3, 20, "C", "major", 120, [], 1/2, 1/2⟩ = -20.6 ∧
    targetLUFS realFns ⟨1/10, 3, 20, "C", "major", 120, [], 1/2, 1/2⟩ = -10 ∧
    gainNeeded realFns ⟨1/10, 3, 20, "C", "major", 120, [], 1/2, 1/2⟩ = 10.6 ∧
    (generateAiSettings realFns ⟨1/10, 3, 20, "C", "major", 120, [], 1/2, 1/2⟩).masterGain
      = clamp ((10 : ℝ) ^ (0.2 : ℝ) - 1) 0 0.8 ∧
    (generateAiSettings realFns ⟨1/10, 3, 20, "C", "major", 120, [], 1/2, 1/2⟩).ceiling
      = -0.3 ∧
    (generateAiSettings realFns ⟨1/10, 3, 20, "C", "major", 120, [], 1/2, 1/2⟩).softClip
      = 0.4 ∧
    (generateAiSettings realFns ⟨1/10, 3, 20, "C", "major", 120, [], 1/2, 1/2⟩).compressor
      = ⟨-16, 2, 0.01, 0.15⟩ :=
  C3_heuristic_literal ⟨1/10, 3, 20, "C", "major", 120, [], 1/2, 1/2⟩ rfl rfl rfl rfl rfl

end Mp3ToWav
